import Mathlib

/-!
Verification of the health-storage module of the Med-remind repository
(src/app/diet/add.tsx): the AsyncStorage-backed record store for diet and
exercise entries, its derived views (entries of the current day, weekly
exercise progress), the reset operation, and the two save actions of the
meal and workout form screens.

Modelling conventions.
* JavaScript numbers are modelled as rationals; JSON text serialization of
  finite numbers round-trips exactly in ECMAScript, so a persisted string
  value is modelled as either a JSON value (Blob.json) or a text that
  JSON.parse rejects (Blob.malformed).  Non-finite numbers are outside the
  model.
* AsyncStorage is a key-value map together with fault flags recording which
  provider calls fail; each provider call returns an Except value, the
  error case modelling a rejected promise.
* Local time is modelled by a fixed offset tz (in milliseconds) from UTC,
  so the local calendar day of an instant t is (t + tz) / 86400000 with
  floor division.  Date.prototype.toDateString renders the local calendar
  date, and two valid instants render equal strings exactly when they lie
  on the same local day, so the toDateString comparison of the source is
  modelled by equality of local day indexes; the rendering of an invalid
  date never equals the rendering of a valid one.  Daylight-saving
  transitions are outside the model.
* new Date(s) is modelled by a parser of the exact profile emitted by
  Date.prototype.toISOString, the only format the app ever writes; a string
  outside that profile is modelled as an invalid date (NaN timestamp), for
  which every date comparison of the source is false.
-/

/-- JSON values; numbers are rationals (exact finite doubles). -/
inductive Json where
  | null : Json
  | bool : Bool → Json
  | num : ℚ → Json
  | str : String → Json
  | arr : List Json → Json
  | obj : List (String × Json) → Json

/-- A food item of a diet entry (src/app/diet/add.tsx, FoodItem). -/
structure FoodItem where
  name : String
  calories : ℚ
  protein : ℚ
  carbs : ℚ
  fat : ℚ
deriving DecidableEq

/-- A diet entry (src/utils/health-storage.ts part, DietEntry). -/
structure DietEntry where
  id : String
  date : String
  mealType : String
  foods : List FoodItem
  totalCalories : ℚ
  totalProtein : ℚ
  totalCarbs : ℚ
  totalFat : ℚ
deriving DecidableEq

/-- A single exercise of a workout; all numeric fields optional. -/
structure Exercise where
  name : String
  sets : Option ℚ
  reps : Option ℚ
  weight : Option ℚ
  duration : Option ℚ
  distance : Option ℚ
deriving DecidableEq

/-- An exercise entry (ExerciseEntry of the source). -/
structure ExerciseEntry where
  id : String
  date : String
  type : String
  exercises : List Exercise
  duration : ℚ
  caloriesBurned : ℚ
deriving DecidableEq

/-- JSON encoding of a food item, mirroring JSON.stringify on the object. -/
def FoodItem.toJson (f : FoodItem) : Json :=
  Json.obj [(("name"), Json.str f.name), (("calories"), Json.num f.calories),
    (("protein"), Json.num f.protein), (("carbs"), Json.num f.carbs),
    (("fat"), Json.num f.fat)]

/-- JSON decoding of a food item. -/
def FoodItem.fromJson (j : Json) : Option FoodItem :=
  match j with
  | .obj fs =>
    match fs.lookup ("name"), fs.lookup ("calories"), fs.lookup ("protein"),
        fs.lookup ("carbs"), fs.lookup ("fat") with
    | some (.str name), some (.num cal), some (.num prot), some (.num crb),
        some (.num ft) => some ⟨name, cal, prot, crb, ft⟩
    | _, _, _, _, _ => none
  | _ => none

/-- JSON.stringify omits properties whose value is undefined; an optional
numeric field therefore contributes one object member when present and
none when absent. -/
def optField (k : String) (v : Option ℚ) : List (String × Json) :=
  match v with
  | none => []
  | some q => [(k, Json.num q)]

/-- JSON encoding of an exercise. -/
def Exercise.toJson (e : Exercise) : Json :=
  Json.obj ([(("name"), Json.str e.name)] ++ optField ("sets") e.sets ++
    optField ("reps") e.reps ++ optField ("weight") e.weight ++
    optField ("duration") e.duration ++ optField ("distance") e.distance)

/-- Decoding of an optional numeric member: a missing member is undefined. -/
def optNum (j : Option Json) : Option (Option ℚ) :=
  match j with
  | none => some none
  | some (.num q) => some (some q)
  | some _ => none

/-- JSON decoding of an exercise. -/
def Exercise.fromJson (j : Json) : Option Exercise :=
  match j with
  | .obj fs =>
    match fs.lookup ("name") with
    | some (.str name) =>
      match optNum (fs.lookup ("sets")), optNum (fs.lookup ("reps")),
          optNum (fs.lookup ("weight")), optNum (fs.lookup ("duration")),
          optNum (fs.lookup ("distance")) with
      | some st, some rp, some wt, some du, some di =>
        some ⟨name, st, rp, wt, du, di⟩
      | _, _, _, _, _ => none
    | _ => none
  | _ => none

/-- Element-wise decoding of a JSON array body. -/
def decodeList {α : Type} (f : Json → Option α) : List Json → Option (List α)
  | [] => some []
  | j :: js =>
    match f j, decodeList f js with
    | some a, some rest => some (a :: rest)
    | _, _ => none

/-- Auxiliary constructor used by the diet-entry decoder. -/
def mkDietEntry (i d mt : String) (tc tp tcb tf : ℚ)
    (foods : Option (List FoodItem)) : Option DietEntry :=
  match foods with
  | some fl => some ⟨i, d, mt, fl, tc, tp, tcb, tf⟩
  | none => none

/-- JSON encoding of a diet entry. -/
def DietEntry.toJson (e : DietEntry) : Json :=
  Json.obj [(("id"), Json.str e.id), (("date"), Json.str e.date),
    (("mealType"), Json.str e.mealType),
    (("foods"), Json.arr (e.foods.map FoodItem.toJson)),
    (("totalCalories"), Json.num e.totalCalories),
    (("totalProtein"), Json.num e.totalProtein),
    (("totalCarbs"), Json.num e.totalCarbs),
    (("totalFat"), Json.num e.totalFat)]

/-- JSON decoding of a diet entry. -/
def DietEntry.fromJson (j : Json) : Option DietEntry :=
  match j with
  | .obj fs =>
    match fs.lookup ("id"), fs.lookup ("date"), fs.lookup ("mealType"),
        fs.lookup ("foods"), fs.lookup ("totalCalories"),
        fs.lookup ("totalProtein"), fs.lookup ("totalCarbs"),
        fs.lookup ("totalFat") with
    | some (.str i), some (.str d), some (.str mt), some (.arr fjs),
        some (.num tc), some (.num tp), some (.num tcb), some (.num tf) =>
      mkDietEntry i d mt tc tp tcb tf (decodeList FoodItem.fromJson fjs)
    | _, _, _, _, _, _, _, _ => none
  | _ => none

/-- Auxiliary constructor used by the exercise-entry decoder. -/
def mkExerciseEntry (i d ty : String) (du cb : ℚ)
    (exs : Option (List Exercise)) : Option ExerciseEntry :=
  match exs with
  | some el => some ⟨i, d, ty, el, du, cb⟩
  | none => none

/-- JSON encoding of an exercise entry. -/
def ExerciseEntry.toJson (e : ExerciseEntry) : Json :=
  Json.obj [(("id"), Json.str e.id), (("date"), Json.str e.date),
    (("type"), Json.str e.type),
    (("exercises"), Json.arr (e.exercises.map Exercise.toJson)),
    (("duration"), Json.num e.duration),
    (("caloriesBurned"), Json.num e.caloriesBurned)]

/-- JSON decoding of an exercise entry. -/
def ExerciseEntry.fromJson (j : Json) : Option ExerciseEntry :=
  match j with
  | .obj fs =>
    match fs.lookup ("id"), fs.lookup ("date"), fs.lookup ("type"),
        fs.lookup ("exercises"), fs.lookup ("duration"),
        fs.lookup ("caloriesBurned") with
    | some (.str i), some (.str d), some (.str ty), some (.arr ejs),
        some (.num du), some (.num cb) =>
      mkExerciseEntry i d ty du cb (decodeList Exercise.fromJson ejs)
    | _, _, _, _, _, _ => none
  | _ => none

/-- A persisted string value: either JSON text, identified with its parse
result (exact, since ECMAScript serialization of finite numbers
round-trips), or a text that JSON.parse rejects. -/
inductive Blob where
  | json : Json → Blob
  | malformed : String → Blob

/-- JSON.parse: fails exactly on malformed text. -/
def jsonParse (b : Blob) : Option Json :=
  match b with
  | .json j => some j
  | .malformed _ => none

/-- The AsyncStorage provider: a key-value map plus fault flags saying
which provider calls reject. -/
structure AsyncStorage where
  store : String → Option Blob
  getFails : String → Bool
  setFails : String → Bool
  multiRemoveFails : Bool

/-- AsyncStorage.getItem: returns the stored string or null; may reject. -/
def AsyncStorage.getItem (s : AsyncStorage) (k : String) :
    Except Unit (Option Blob) :=
  if s.getFails k then Except.error () else Except.ok (s.store k)

/-- AsyncStorage.setItem: overwrites one key; may reject. -/
def AsyncStorage.setItem (s : AsyncStorage) (k : String) (v : Blob) :
    Except Unit AsyncStorage :=
  if s.setFails k then Except.error ()
  else Except.ok
    { s with store := fun k2 => if k2 = k then some v else s.store k2 }

/-- AsyncStorage.multiRemove: deletes the listed keys; may reject. -/
def AsyncStorage.multiRemove (s : AsyncStorage) (ks : List String) :
    Except Unit AsyncStorage :=
  if s.multiRemoveFails then Except.error ()
  else Except.ok
    { s with store := fun k2 => if ks.contains k2 then none else s.store k2 }

/-- Storage key of the diet collection (source line 1433). -/
def DIET_KEY : String := "@diet_entries"

/-- Storage key of the exercise collection (source line 1434). -/
def EXERCISE_KEY : String := "@exercise_entries"

/-- JSON.stringify of a diet-entry array. -/
def jsonStringifyDiet (l : List DietEntry) : Blob :=
  Blob.json (Json.arr (l.map DietEntry.toJson))

/-- JSON.stringify of an exercise-entry array. -/
def jsonStringifyExercise (l : List ExerciseEntry) : Blob :=
  Blob.json (Json.arr (l.map ExerciseEntry.toJson))

/-- Decoding of a persisted diet-entry array. -/
def decodeDietList (j : Json) : Option (List DietEntry) :=
  match j with
  | .arr js => decodeList DietEntry.fromJson js
  | _ => none

/-- Decoding of a persisted exercise-entry array. -/
def decodeExerciseList (j : Json) : Option (List ExerciseEntry) :=
  match j with
  | .arr js => decodeList ExerciseEntry.fromJson js
  | _ => none

/-- The raw JS value produced by getDietEntries (source lines 1469-1477):
data ? JSON.parse(data) : [], with a rejected get, an absent or empty
value, and a JSON.parse throw all caught and collapsed to the empty array.
The parse result is returned unvalidated, so it can be any JSON value,
not only an array of entries of the declared shape. -/
def getDietRaw (s : AsyncStorage) : Json :=
  match s.getItem DIET_KEY with
  | .error _ => Json.arr []
  | .ok none => Json.arr []
  | .ok (some b) =>
    match jsonParse b with
    | none => Json.arr []
    | some j => j

/-- The same raw read for the exercise collection (source lines
1490-1498). -/
def getExerciseRaw (s : AsyncStorage) : Json :=
  match s.getItem EXERCISE_KEY with
  | .error _ => Json.arr []
  | .ok none => Json.arr []
  | .ok (some b) =>
    match jsonParse b with
    | none => Json.arr []
    | some j => j

/-- The list of diet entries seen by the typed read paths.  The source
casts the raw parse result to the entry type with no validation; a value
that is not an array of entries of the declared shape cannot live in a
typed list and is mapped to the empty list here.  On such values the
derived views of the source agree with this collapse (their filter either
throws a TypeError absorbed by their own catch, or drops every element at
the invalid-date comparison), and the write path below consumes getDietRaw
directly, so the entries.push TypeError of the source is preserved
there. -/
def getDietEntries (s : AsyncStorage) : List DietEntry :=
  match decodeDietList (getDietRaw s) with
  | some l => l
  | none => []

/-- The list of exercise entries seen by the typed read paths; same
collapse as getDietEntries. -/
def getExerciseEntries (s : AsyncStorage) : List ExerciseEntry :=
  match decodeExerciseList (getExerciseRaw s) with
  | some l => l
  | none => []

/-- Whether a JS value is an array, deciding whether entries.push exists:
on every non-array value the push of the source throws a TypeError. -/
def jsIsArray : Json → Bool
  | .arr _ => true
  | _ => false

/-- addDietEntry (source lines 1479-1488): read the current raw value (the
fail-open read never throws), entries.push(entry) — a TypeError when the
raw value is not an array, rethrown by the catch with no write attempted —
then write the stringified pushed array back; a rejected setItem is also
rethrown to the caller. -/
def addDietEntry (s : AsyncStorage) (entry : DietEntry) :
    Except Unit AsyncStorage :=
  match getDietRaw s with
  | .arr js => s.setItem DIET_KEY (Blob.json (Json.arr (js ++ [entry.toJson])))
  | _ => Except.error ()

/-- addExerciseEntry (source lines 1500-1509), same contract on
EXERCISE_KEY. -/
def addExerciseEntry (s : AsyncStorage) (entry : ExerciseEntry) :
    Except Unit AsyncStorage :=
  match getExerciseRaw s with
  | .arr js =>
    s.setItem EXERCISE_KEY (Blob.json (Json.arr (js ++ [entry.toJson])))
  | _ => Except.error ()

/-- clearHealthData (source lines 1577-1584): one multiRemove of both keys;
a rejected multiRemove is rethrown. -/
def clearHealthData (s : AsyncStorage) : Except Unit AsyncStorage :=
  s.multiRemove [DIET_KEY, EXERCISE_KEY]

/-- Value of a decimal digit character. -/
def digitVal (c : Char) : Option Nat :=
  if c.isDigit then some (c.toNat - 48) else none

/-- Leap-year test of the proleptic Gregorian calendar. -/
def isLeapYear (y : Int) : Bool :=
  y % 4 == 0 && (y % 100 != 0 || y % 400 == 0)

/-- Number of days of a month. -/
def daysInMonth (y : Int) (m : Nat) : Nat :=
  if m == 2 then (if isLeapYear y then 29 else 28)
  else if m == 4 || m == 6 || m == 9 || m == 11 then 30 else 31

/-- Days since 1970-01-01 of the civil date y-m-d (proleptic Gregorian),
the classical era-based computation. -/
def daysFromCivil (y : Int) (m d : Nat) : Int :=
  let y2 : Int := if m ≤ 2 then y - 1 else y
  let era : Int := y2 / 400
  let yoe : Int := y2 - era * 400
  let mp : Int := (Int.ofNat m + 9) % 12
  let doy : Int := (153 * mp + 2) / 5 + Int.ofNat d - 1
  let doe : Int := yoe * 365 + yoe / 4 - yoe / 100 + doy
  era * 146097 + doe - 719468

/-- new Date(s) on the profile emitted by Date.prototype.toISOString
(YYYY-MM-DDTHH:MM:SS.mmmZ): the UTC timestamp in milliseconds, or none for
an invalid date.  Out-of-range components yield an invalid date, as in
ECMAScript. -/
def parseISODate (s : String) : Option Int :=
  match s.toList with
  | [y1, y2, y3, y4, '-', m1, m2, '-', d1, d2, 'T',
      h1, h2, ':', n1, n2, ':', p1, p2, '.', f1, f2, f3, 'Z'] =>
    match digitVal y1, digitVal y2, digitVal y3, digitVal y4,
        digitVal m1, digitVal m2, digitVal d1, digitVal d2,
        digitVal h1, digitVal h2, digitVal n1, digitVal n2,
        digitVal p1, digitVal p2, digitVal f1, digitVal f2, digitVal f3 with
    | some a1, some a2, some a3, some a4, some b1, some b2, some c1, some c2,
        some e1, some e2, some g1, some g2, some q1, some q2, some r1,
        some r2, some r3 =>
      let y : Int := Int.ofNat (a1 * 1000 + a2 * 100 + a3 * 10 + a4)
      let mo : Nat := b1 * 10 + b2
      let dd : Nat := c1 * 10 + c2
      let hh : Nat := e1 * 10 + e2
      let mi : Nat := g1 * 10 + g2
      let ss : Nat := q1 * 10 + q2
      let ms : Nat := r1 * 100 + r2 * 10 + r3
      if 1 ≤ mo ∧ mo ≤ 12 ∧ 1 ≤ dd ∧ dd ≤ daysInMonth y mo ∧ hh ≤ 23 ∧
          mi ≤ 59 ∧ ss ≤ 59 then
        some (daysFromCivil y mo dd * 86400000 +
          Int.ofNat (hh * 3600000 + mi * 60000 + ss * 1000 + ms))
      else none
    | _, _, _, _, _, _, _, _, _, _, _, _, _, _, _, _, _ => none
  | _ => none

/-- Local calendar day index of an instant, with tz the fixed local-time
offset in milliseconds: the truncation to calendar day performed by
Date.prototype.toDateString and by setHours(0,0,0,0). -/
def localDayIndex (tz t : Int) : Int := (t + tz) / 86400000

/-- Date.prototype.getDay of a local day index: 0 for Sunday.  Day 0 of the
epoch (1970-01-01) was a Thursday, weekday 4. -/
def weekday (d : Int) : Int := (d + 4) % 7

/-- The toDateString comparison of the today filters (source lines
1514-1517 and 1527-1530): true exactly when the date string is a valid
date lying on the same local calendar day as now; the rendering of an
invalid date equals no rendering of a valid instant. -/
def sameLocalDay (tz now : Int) (dateStr : String) : Bool :=
  match parseISODate dateStr with
  | none => false
  | some t => localDayIndex tz t == localDayIndex tz now

/-- getTodaysDietEntries (source lines 1511-1522). -/
def getTodaysDietEntries (tz now : Int) (s : AsyncStorage) : List DietEntry :=
  (getDietEntries s).filter (fun e => sameLocalDay tz now e.date)

/-- getTodaysExerciseEntries (source lines 1524-1535). -/
def getTodaysExerciseEntries (tz now : Int) (s : AsyncStorage) :
    List ExerciseEntry :=
  (getExerciseEntries s).filter (fun e => sameLocalDay tz now e.date)

/-- The weekStart of getWeeklyExerciseProgress (source lines 1545-1548):
copy now, setDate(getDate() - getDay()), setHours(0,0,0,0); with a fixed
offset this is the local midnight opening the local day whose index is the
index of now minus the weekday of now, converted back to a UTC instant. -/
def weekStartMs (tz now : Int) : Int :=
  (localDayIndex tz now - weekday (localDayIndex tz now)) * 86400000 - tz

/-- The week-window test of getWeeklyExerciseProgress (source lines
1553-1556): weekStart ≤ date < weekStart + 7 days, false on an invalid
date (NaN comparisons are false). -/
def inCurrentWeek (tz now : Int) (dateStr : String) : Bool :=
  match parseISODate dateStr with
  | none => false
  | some t =>
    decide (weekStartMs tz now ≤ t) && decide (t < weekStartMs tz now + 604800000)

/-- The fixed-shape result of getWeeklyExerciseProgress. -/
structure WeeklyProgress where
  strength : Nat
  cardio : Nat
  walking : Nat
  flexibility : Nat
deriving DecidableEq

/-- getWeeklyExerciseProgress (source lines 1537-1575): filter the stored
exercise entries to the current week, then count per type; any failure
(already absorbed by the fail-open read) yields all-zero counts. -/
def getWeeklyExerciseProgress (tz now : Int) (s : AsyncStorage) :
    WeeklyProgress :=
  let entries := getExerciseEntries s
  let weeklyEntries := entries.filter (fun e => inCurrentWeek tz now e.date)
  { strength := (weeklyEntries.filter (fun e => e.type == "strength")).length
    cardio := (weeklyEntries.filter (fun e => e.type == "cardio")).length
    walking := (weeklyEntries.filter (fun e => e.type == "walking")).length
    flexibility :=
      (weeklyEntries.filter (fun e => e.type == "flexibility")).length }

/-- The running totals of the meal screen (source lines 94-104): a left
fold of the per-item values starting from zero. -/
structure Totals where
  calories : ℚ
  protein : ℚ
  carbs : ℚ
  fat : ℚ
deriving DecidableEq

/-- calculateTotals (source lines 94-104). -/
def calculateTotals (foodItems : List FoodItem) : Totals :=
  foodItems.foldl
    (fun acc item =>
      ⟨acc.calories + item.calories, acc.protein + item.protein,
        acc.carbs + item.carbs, acc.fat + item.fat⟩)
    ⟨0, 0, 0, 0⟩

/-- The DietEntry built by saveMeal (source lines 112-123); the id and date
strings are the clock-derived values of the screen. -/
def mealEntry (i d mt : String) (foodItems : List FoodItem) : DietEntry :=
  let totals := calculateTotals foodItems
  ⟨i, d, mt, foodItems, totals.calories, totals.protein, totals.carbs,
    totals.fat⟩

/-- saveMeal (source lines 106-135): with no food item the save is rejected
with an alert and the store is never called (none); otherwise addDietEntry
runs on the built entry. -/
def saveMeal (i d mt : String) (foodItems : List FoodItem)
    (s : AsyncStorage) : Option (Except Unit AsyncStorage) :=
  if foodItems.length = 0 then none
  else some (addDietEntry s (mealEntry i d mt foodItems))

/-- Math.round: round half toward positive infinity. -/
def mathRound (q : ℚ) : Int := Rat.floor (q + 1/2)

/-- The ExerciseEntry built by saveWorkout (source lines 588-597):
caloriesBurned is Math.round(duration * 5). -/
def workoutEntry (i d ty : String) (exercises : List Exercise)
    (duration : Int) : ExerciseEntry :=
  ⟨i, d, ty, exercises, (duration : ℚ), (mathRound ((duration : ℚ) * 5) : ℚ)⟩

/-- saveWorkout (source lines 569-609): rejected with no exercise, with an
unparseable duration (parseInt NaN, modelled by none), or with a
non-positive duration, without calling the store; otherwise
addExerciseEntry runs on the built entry. -/
def saveWorkout (i d ty : String) (exercises : List Exercise)
    (parsedDuration : Option Int) (s : AsyncStorage) :
    Option (Except Unit AsyncStorage) :=
  if exercises.length = 0 then none
  else
    match parsedDuration with
    | none => none
    | some du =>
      if du ≤ 0 then none
      else some (addExerciseEntry s (workoutEntry i d ty exercises du))

/-- The empty provider with no faults. -/
def initStore : AsyncStorage :=
  { store := fun _ => none, getFails := fun _ => false,
    setFails := fun _ => false, multiRemoveFails := false }

/-- A fault-free provider holding the two serialized collections. -/
def mkStore (dl : List DietEntry) (xl : List ExerciseEntry) : AsyncStorage :=
  { store := fun k =>
      if k = DIET_KEY then some (jsonStringifyDiet dl)
      else if k = EXERCISE_KEY then some (jsonStringifyExercise xl)
      else none,
    getFails := fun _ => false, setFails := fun _ => false,
    multiRemoveFails := false }

/-- Round trip of the food-item codec. -/
theorem foodItem_roundtrip (f : FoodItem) :
    FoodItem.fromJson f.toJson = some f := rfl

/-- Round trip of a food-item array. -/
theorem decodeList_foodItems (l : List FoodItem) :
    decodeList FoodItem.fromJson (l.map FoodItem.toJson) = some l := by
  induction l with
  | nil => rfl
  | cons a t ih => simp [decodeList, foodItem_roundtrip, ih]

/-- Round trip of the diet-entry codec. -/
theorem dietEntry_roundtrip (e : DietEntry) :
    DietEntry.fromJson e.toJson = some e := by
  rw [show DietEntry.fromJson e.toJson =
      mkDietEntry e.id e.date e.mealType e.totalCalories e.totalProtein
        e.totalCarbs e.totalFat
        (decodeList FoodItem.fromJson (e.foods.map FoodItem.toJson)) from rfl,
    decodeList_foodItems]
  rfl

/-- Round trip of the exercise codec, by cases on the optional fields. -/
theorem exercise_roundtrip (e : Exercise) :
    Exercise.fromJson e.toJson = some e := by
  obtain ⟨name, st, rp, wt, du, di⟩ := e
  cases st <;> cases rp <;> cases wt <;> cases du <;> cases di <;> rfl

/-- Round trip of a diet-entry array. -/
theorem decodeList_dietEntries (l : List DietEntry) :
    decodeList DietEntry.fromJson (l.map DietEntry.toJson) = some l := by
  induction l with
  | nil => rfl
  | cons a t ih => simp [decodeList, dietEntry_roundtrip, ih]

/-- Round trip of an exercise array. -/
theorem decodeList_exercises (l : List Exercise) :
    decodeList Exercise.fromJson (l.map Exercise.toJson) = some l := by
  induction l with
  | nil => rfl
  | cons a t ih => simp [decodeList, exercise_roundtrip, ih]

/-- Round trip of the exercise-entry codec. -/
theorem exerciseEntry_roundtrip (e : ExerciseEntry) :
    ExerciseEntry.fromJson e.toJson = some e := by
  rw [show ExerciseEntry.fromJson e.toJson =
      mkExerciseEntry e.id e.date e.type e.duration e.caloriesBurned
        (decodeList Exercise.fromJson (e.exercises.map Exercise.toJson))
      from rfl,
    decodeList_exercises]
  rfl

/-- Round trip of an exercise-entry array. -/
theorem decodeList_exerciseEntries (l : List ExerciseEntry) :
    decodeList ExerciseEntry.fromJson (l.map ExerciseEntry.toJson) = some l := by
  induction l with
  | nil => rfl
  | cons a t ih => simp [decodeList, exerciseEntry_roundtrip, ih]

/-- Reading the diet collection of a fault-free pre-seeded store. -/
theorem getDietEntries_mkStore (dl : List DietEntry)
    (xl : List ExerciseEntry) : getDietEntries (mkStore dl xl) = dl := by
  simp [getDietEntries, getDietRaw, mkStore, AsyncStorage.getItem,
    jsonStringifyDiet, jsonParse, decodeDietList, decodeList_dietEntries]

/-- Reading the exercise collection of a fault-free pre-seeded store. -/
theorem getExerciseEntries_mkStore (dl : List DietEntry)
    (xl : List ExerciseEntry) : getExerciseEntries (mkStore dl xl) = xl := by
  simp [getExerciseEntries, getExerciseRaw, mkStore, AsyncStorage.getItem,
    DIET_KEY, EXERCISE_KEY, jsonStringifyExercise, jsonParse,
    decodeExerciseList, decodeList_exerciseEntries]

/-- A store whose diet key is absent or holds a serialized entry array:
the states reachable by the write path from the empty store.  On them the
raw parse result really is an array and entries.push cannot throw. -/
def wfDiet (s : AsyncStorage) : Prop :=
  s.store DIET_KEY = none ∨
    ∃ l, s.store DIET_KEY = some (jsonStringifyDiet l)

/-- Reading the diet collection back after writing a serialized list. -/
theorem getDietEntries_after_set (s : AsyncStorage) (l : List DietEntry)
    (hget : s.getFails DIET_KEY = false) :
    getDietEntries
      { s with store := fun k2 =>
          if k2 = DIET_KEY then some (jsonStringifyDiet l)
          else s.store k2 } = l := by
  simp [getDietEntries, getDietRaw, AsyncStorage.getItem, hget,
    jsonStringifyDiet, jsonParse, decodeDietList, decodeList_dietEntries]

/-- On a well-formed store the raw diet value is the serialization of the
typed list. -/
theorem getDietRaw_wf (s : AsyncStorage)
    (hget : s.getFails DIET_KEY = false) (hwf : wfDiet s) :
    getDietRaw s = Json.arr ((getDietEntries s).map DietEntry.toJson) := by
  rcases hwf with h | ⟨l, h⟩
  · simp [getDietRaw, getDietEntries, AsyncStorage.getItem, hget, h,
      decodeDietList, decodeList]
  · have hl : getDietEntries s = l := by
      simp [getDietEntries, getDietRaw, AsyncStorage.getItem, hget, h,
        jsonStringifyDiet, jsonParse, decodeDietList, decodeList_dietEntries]
    simp [getDietRaw, AsyncStorage.getItem, hget, h, jsonStringifyDiet,
      jsonParse, hl]

/-- On a well-formed store with a working write, addDietEntry succeeds and
writes the extended serialized list under DIET_KEY, changing nothing
else. -/
theorem addDietEntry_wf (s : AsyncStorage) (entry : DietEntry)
    (hget : s.getFails DIET_KEY = false)
    (hset : s.setFails DIET_KEY = false) (hwf : wfDiet s) :
    addDietEntry s entry = Except.ok
      { s with store := fun k2 =>
          if k2 = DIET_KEY then
            some (jsonStringifyDiet (getDietEntries s ++ [entry]))
          else s.store k2 } := by
  have hraw := getDietRaw_wf s hget hwf
  simp only [addDietEntry, hraw]
  simp [AsyncStorage.setItem, hset, jsonStringifyDiet, List.map_append]

/-- A sequence of addDietEntry calls, each awaited before the next. -/
def addDietEntries (s : AsyncStorage) :
    List DietEntry → Except Unit AsyncStorage
  | [] => Except.ok s
  | e :: t =>
    match addDietEntry s e with
    | .ok s2 => addDietEntries s2 t
    | .error er => Except.error er

/-- On a well-formed store whose diet reads and writes do not fault,
appending a sequence of entries succeeds and extends the readable list in
order. -/
theorem addDietEntries_ok (es : List DietEntry) : ∀ s : AsyncStorage,
    s.getFails DIET_KEY = false → s.setFails DIET_KEY = false → wfDiet s →
    ∃ s2, addDietEntries s es = Except.ok s2 ∧
      getDietEntries s2 = getDietEntries s ++ es := by
  induction es with
  | nil => intro s _ _ _; exact ⟨s, rfl, by simp⟩
  | cons e t ih =>
    intro s hg hs hwf
    have hstep := addDietEntry_wf s e hg hs hwf
    obtain ⟨s2, h1, h2⟩ := ih
      { s with store := fun k2 =>
          if k2 = DIET_KEY then
            some (jsonStringifyDiet (getDietEntries s ++ [e]))
          else s.store k2 }
      (by simpa using hg) (by simpa using hs)
      (Or.inr ⟨getDietEntries s ++ [e], by simp⟩)
    refine ⟨s2, ?_, ?_⟩
    · simp only [addDietEntries, hstep, h1]
    · rw [h2, getDietEntries_after_set s _ hg]
      simp

/-- Filtering twice counts the conjunction of the two predicates. -/
theorem length_filter_filter {α : Type} (p q : α → Bool) (l : List α) :
    ((l.filter p).filter q).length = (l.filter (fun a => p a && q a)).length := by
  rw [List.filter_filter]
  have h : ∀ a ∈ l, (q a && p a) = (p a && q a) := by
    intro a _
    exact Bool.and_comm (q a) (p a)
  rw [List.filter_congr h]

/-- The fold of calculateTotals from an arbitrary accumulator. -/
theorem foldl_totals (l : List FoodItem) : ∀ acc : Totals,
    l.foldl
      (fun acc item =>
        (⟨acc.calories + item.calories, acc.protein + item.protein,
          acc.carbs + item.carbs, acc.fat + item.fat⟩ : Totals)) acc =
    ⟨acc.calories + (l.map FoodItem.calories).sum,
      acc.protein + (l.map FoodItem.protein).sum,
      acc.carbs + (l.map FoodItem.carbs).sum,
      acc.fat + (l.map FoodItem.fat).sum⟩ := by
  induction l with
  | nil => intro acc; simp
  | cons a t ih =>
    intro acc
    simp [List.foldl, ih, add_assoc]

/-- calculateTotals computes the four per-field sums. -/
theorem calculateTotals_spec (l : List FoodItem) :
    calculateTotals l =
      ⟨(l.map FoodItem.calories).sum, (l.map FoodItem.protein).sum,
        (l.map FoodItem.carbs).sum, (l.map FoodItem.fat).sum⟩ := by
  rw [calculateTotals, foldl_totals]
  simp

/-- Math.round of five times an integral duration is exact. -/
theorem mathRound_intCast_mul (n : Int) :
    mathRound ((n : ℚ) * 5) = n * 5 := by
  show (⌊((n : ℚ) * 5 + 1/2)⌋ : Int) = n * 5
  have h : ((n : ℚ)) * 5 = ((n * 5 : Int) : ℚ) := by push_cast; ring
  have h2 : (⌊(1/2 : ℚ)⌋ : Int) = 0 := by
    rw [Int.floor_eq_iff]
    norm_num
  rw [h, add_comm, Int.floor_add_int, h2]
  ring

/-- A rejected get yields the empty diet list. -/
theorem getDiet_fail (s : AsyncStorage) (h : s.getFails DIET_KEY = true) :
    getDietEntries s = [] := by
  simp [getDietEntries, getDietRaw, AsyncStorage.getItem, h, decodeDietList,
    decodeList]

/-- An absent diet key yields the empty list. -/
theorem getDiet_absent (s : AsyncStorage) (h : s.store DIET_KEY = none) :
    getDietEntries s = [] := by
  cases hgf : s.getFails DIET_KEY <;>
    simp [getDietEntries, getDietRaw, AsyncStorage.getItem, hgf, h,
      decodeDietList, decodeList]

/-- A malformed diet blob yields the empty list. -/
theorem getDiet_malformed (s : AsyncStorage) (msg : String)
    (h : s.store DIET_KEY = some (Blob.malformed msg)) :
    getDietEntries s = [] := by
  cases hgf : s.getFails DIET_KEY <;>
    simp [getDietEntries, getDietRaw, AsyncStorage.getItem, hgf, h,
      jsonParse, decodeDietList, decodeList]

/-- A rejected get yields the empty exercise list. -/
theorem getEx_fail (s : AsyncStorage) (h : s.getFails EXERCISE_KEY = true) :
    getExerciseEntries s = [] := by
  simp [getExerciseEntries, getExerciseRaw, AsyncStorage.getItem, h,
    decodeExerciseList, decodeList]

/-- An absent exercise key yields the empty list. -/
theorem getEx_absent (s : AsyncStorage) (h : s.store EXERCISE_KEY = none) :
    getExerciseEntries s = [] := by
  cases hgf : s.getFails EXERCISE_KEY <;>
    simp [getExerciseEntries, getExerciseRaw, AsyncStorage.getItem, hgf, h,
      decodeExerciseList, decodeList]

/-- A malformed exercise blob yields the empty list. -/
theorem getEx_malformed (s : AsyncStorage) (msg : String)
    (h : s.store EXERCISE_KEY = some (Blob.malformed msg)) :
    getExerciseEntries s = [] := by
  cases hgf : s.getFails EXERCISE_KEY <;>
    simp [getExerciseEntries, getExerciseRaw, AsyncStorage.getItem, hgf, h,
      jsonParse, decodeExerciseList, decodeList]

/-- An empty exercise list gives all-zero weekly counts. -/
theorem weekly_zero_of_empty (tz now : Int) (s : AsyncStorage)
    (h : getExerciseEntries s = []) :
    getWeeklyExerciseProgress tz now s = ⟨0, 0, 0, 0⟩ := by
  simp [getWeeklyExerciseProgress, h]

/-- C1: appending any sequence of N diet entries to an empty store through
addDietEntry succeeds, and getDietEntries then returns exactly those N
entries in append order; the JSON codec round-trips every field of the
declared DietEntry shape. -/
theorem claim_C1 :
    (∀ es : List DietEntry,
      match addDietEntries initStore es with
      | .ok s2 => getDietEntries s2 = es
      | .error _ => False) ∧
    (∀ e : DietEntry, DietEntry.fromJson e.toJson = some e) := by
  constructor
  · intro es
    obtain ⟨s2, h1, h2⟩ := addDietEntries_ok es initStore rfl rfl (Or.inl rfl)
    rw [h1]
    simpa [getDietEntries, getDietRaw, initStore, AsyncStorage.getItem,
      decodeDietList, decodeList] using h2
  · exact dietEntry_roundtrip

/-- C4: every read fails open: a rejected provider get, an absent key, or
malformed stored text yields the empty list from getDietEntries,
getExerciseEntries and both today views, and all-zero weekly counts; the
read operations return plain values, so no error reaches the caller. -/
theorem claim_C4 (s : AsyncStorage) (tz now : Int) :
    (s.getFails DIET_KEY = true →
      getDietEntries s = [] ∧ getTodaysDietEntries tz now s = []) ∧
    (s.store DIET_KEY = none →
      getDietEntries s = [] ∧ getTodaysDietEntries tz now s = []) ∧
    (∀ msg, s.store DIET_KEY = some (Blob.malformed msg) →
      getDietEntries s = [] ∧ getTodaysDietEntries tz now s = []) ∧
    (s.getFails EXERCISE_KEY = true →
      getExerciseEntries s = [] ∧ getTodaysExerciseEntries tz now s = [] ∧
      getWeeklyExerciseProgress tz now s = ⟨0, 0, 0, 0⟩) ∧
    (s.store EXERCISE_KEY = none →
      getExerciseEntries s = [] ∧ getTodaysExerciseEntries tz now s = [] ∧
      getWeeklyExerciseProgress tz now s = ⟨0, 0, 0, 0⟩) ∧
    (∀ msg, s.store EXERCISE_KEY = some (Blob.malformed msg) →
      getExerciseEntries s = [] ∧ getTodaysExerciseEntries tz now s = [] ∧
      getWeeklyExerciseProgress tz now s = ⟨0, 0, 0, 0⟩) := by
  refine ⟨fun h => ⟨getDiet_fail s h, ?_⟩, fun h => ⟨getDiet_absent s h, ?_⟩,
    fun msg h => ⟨getDiet_malformed s msg h, ?_⟩,
    fun h => ⟨getEx_fail s h, ?_, weekly_zero_of_empty tz now s (getEx_fail s h)⟩,
    fun h => ⟨getEx_absent s h, ?_, weekly_zero_of_empty tz now s (getEx_absent s h)⟩,
    fun msg h => ⟨getEx_malformed s msg h, ?_,
      weekly_zero_of_empty tz now s (getEx_malformed s msg h)⟩⟩
  · simp [getTodaysDietEntries, getDiet_fail s h]
  · simp [getTodaysDietEntries, getDiet_absent s h]
  · simp [getTodaysDietEntries, getDiet_malformed s msg h]
  · simp [getTodaysExerciseEntries, getEx_fail s h]
  · simp [getTodaysExerciseEntries, getEx_absent s h]
  · simp [getTodaysExerciseEntries, getEx_malformed s msg h]

/-- C5 (amended): clearHealthData rejects exactly when the underlying
multiRemove rejects; addDietEntry and addExerciseEntry reject exactly when
the underlying setItem rejects or the stored blob under their key is valid
JSON that is not an array, in which case the entries.push TypeError of the
source is rethrown before any write is attempted; in every other state a
working write returns normally, with no retry. -/
theorem claim_C5 (s : AsyncStorage) (de : DietEntry) (xe : ExerciseEntry) :
    (addDietEntry s de = Except.error () ↔
      (s.setFails DIET_KEY = true ∨ jsIsArray (getDietRaw s) = false)) ∧
    (addExerciseEntry s xe = Except.error () ↔
      (s.setFails EXERCISE_KEY = true ∨
        jsIsArray (getExerciseRaw s) = false)) ∧
    (clearHealthData s = Except.error () ↔ s.multiRemoveFails = true) ∧
    (s.setFails DIET_KEY = false → jsIsArray (getDietRaw s) = true →
      ∃ s2, addDietEntry s de = Except.ok s2) ∧
    (s.setFails EXERCISE_KEY = false → jsIsArray (getExerciseRaw s) = true →
      ∃ s2, addExerciseEntry s xe = Except.ok s2) ∧
    (s.multiRemoveFails = false →
      ∃ s2, clearHealthData s = Except.ok s2) := by
  refine ⟨?_, ?_, ?_, ?_, ?_, ?_⟩
  · cases hraw : getDietRaw s <;> cases h : s.setFails DIET_KEY <;>
      simp [addDietEntry, hraw, AsyncStorage.setItem, h, jsIsArray]
  · cases hraw : getExerciseRaw s <;> cases h : s.setFails EXERCISE_KEY <;>
      simp [addExerciseEntry, hraw, AsyncStorage.setItem, h, jsIsArray]
  · cases h : s.multiRemoveFails <;>
      simp [clearHealthData, AsyncStorage.multiRemove, h]
  · intro h harr
    cases hres : addDietEntry s de with
    | ok s2 => exact ⟨s2, rfl⟩
    | error er =>
      simp only [addDietEntry] at hres
      cases hraw : getDietRaw s <;> rw [hraw] at hres harr
      case arr js => simp [AsyncStorage.setItem, h] at hres
      all_goals simp [jsIsArray] at harr
  · intro h harr
    cases hres : addExerciseEntry s xe with
    | ok s2 => exact ⟨s2, rfl⟩
    | error er =>
      simp only [addExerciseEntry] at hres
      cases hraw : getExerciseRaw s <;> rw [hraw] at hres harr
      case arr js => simp [AsyncStorage.setItem, h] at hres
      all_goals simp [jsIsArray] at harr
  · intro h
    cases hres : clearHealthData s with
    | ok s2 => exact ⟨s2, rfl⟩
    | error er => simp [clearHealthData, AsyncStorage.multiRemove, h] at hres

/-- C6: after a successful clearHealthData both collections read back
empty, whatever had been appended before. -/
theorem claim_C6 (s s2 : AsyncStorage)
    (h : clearHealthData s = Except.ok s2) :
    getDietEntries s2 = [] ∧ getExerciseEntries s2 = [] := by
  by_cases hm : s.multiRemoveFails
  · simp [clearHealthData, AsyncStorage.multiRemove, hm] at h
  · simp [clearHealthData, AsyncStorage.multiRemove, hm] at h
    subst h
    constructor
    · exact getDiet_absent _ (by simp)
    · exact getEx_absent _ (by simp)

/-- C9: the two collections are independent: a successful addDietEntry
leaves the value under EXERCISE_KEY and the readable exercise list
unchanged, and a successful addExerciseEntry leaves the value under
DIET_KEY and the readable diet list unchanged. -/
theorem claim_C9 (s : AsyncStorage) (de : DietEntry) (xe : ExerciseEntry) :
    (∀ s2, addDietEntry s de = Except.ok s2 →
      s2.store EXERCISE_KEY = s.store EXERCISE_KEY ∧
      getExerciseEntries s2 = getExerciseEntries s) ∧
    (∀ s2, addExerciseEntry s xe = Except.ok s2 →
      s2.store DIET_KEY = s.store DIET_KEY ∧
      getDietEntries s2 = getDietEntries s) := by
  constructor
  · intro s2 h
    simp only [addDietEntry] at h
    cases hraw : getDietRaw s <;> rw [hraw] at h
    case arr js =>
      by_cases hs : s.setFails DIET_KEY
      · simp [AsyncStorage.setItem, hs] at h
      · simp [AsyncStorage.setItem, hs] at h
        subst h
        constructor
        · simp [DIET_KEY, EXERCISE_KEY]
        · simp [getExerciseEntries, getExerciseRaw, AsyncStorage.getItem,
            DIET_KEY, EXERCISE_KEY]
    all_goals simp at h
  · intro s2 h
    simp only [addExerciseEntry] at h
    cases hraw : getExerciseRaw s <;> rw [hraw] at h
    case arr js =>
      by_cases hs : s.setFails EXERCISE_KEY
      · simp [AsyncStorage.setItem, hs] at h
      · simp [AsyncStorage.setItem, hs] at h
        subst h
        constructor
        · simp [DIET_KEY, EXERCISE_KEY]
        · simp [getDietEntries, getDietRaw, AsyncStorage.getItem,
            DIET_KEY, EXERCISE_KEY]
    all_goals simp at h

/-- C2: the weekly progress counts, per type, exactly the stored exercise
entries whose date lies in the window opened at the most recent local
Sunday midnight (inclusive) and closed seven days later (exclusive): each
count equals the number of in-window entries of that type, an entry dated
exactly at weekStart is counted, an entry dated exactly at weekEnd is not,
and weekStart is a local midnight, falls on a Sunday, and is the most
recent one: weekStart ≤ now < weekStart + 7 days. -/
theorem claim_C2 (tz now : Int) (s : AsyncStorage) :
    ((getWeeklyExerciseProgress tz now s).strength =
      ((getExerciseEntries s).filter
        (fun e => inCurrentWeek tz now e.date && (e.type == "strength"))).length ∧
    (getWeeklyExerciseProgress tz now s).cardio =
      ((getExerciseEntries s).filter
        (fun e => inCurrentWeek tz now e.date && (e.type == "cardio"))).length ∧
    (getWeeklyExerciseProgress tz now s).walking =
      ((getExerciseEntries s).filter
        (fun e => inCurrentWeek tz now e.date && (e.type == "walking"))).length ∧
    (getWeeklyExerciseProgress tz now s).flexibility =
      ((getExerciseEntries s).filter
        (fun e => inCurrentWeek tz now e.date && (e.type == "flexibility"))).length) ∧
    (∀ e : ExerciseEntry, parseISODate e.date = some (weekStartMs tz now) →
      inCurrentWeek tz now e.date = true) ∧
    (∀ e : ExerciseEntry,
      parseISODate e.date = some (weekStartMs tz now + 604800000) →
      inCurrentWeek tz now e.date = false) ∧
    (weekStartMs tz now + tz) % 86400000 = 0 ∧
    weekday (localDayIndex tz (weekStartMs tz now)) = 0 ∧
    weekStartMs tz now ≤ now ∧ now < weekStartMs tz now + 604800000 := by
  refine ⟨⟨?_, ?_, ?_, ?_⟩, ?_, ?_, ?_, ?_, ?_, ?_⟩
  · simp only [getWeeklyExerciseProgress]
    exact length_filter_filter _ _ _
  · simp only [getWeeklyExerciseProgress]
    exact length_filter_filter _ _ _
  · simp only [getWeeklyExerciseProgress]
    exact length_filter_filter _ _ _
  · simp only [getWeeklyExerciseProgress]
    exact length_filter_filter _ _ _
  · intro e h
    simp only [inCurrentWeek, h]
    simp only [Bool.and_eq_true, decide_eq_true_eq]
    omega
  · intro e h
    simp only [inCurrentWeek, h]
    simp only [Bool.and_eq_false_iff, decide_eq_false_iff_not]
    omega
  · simp only [weekStartMs, localDayIndex, weekday]
    omega
  · simp only [weekStartMs, localDayIndex, weekday]
    omega
  · simp only [weekStartMs, localDayIndex, weekday]
    omega
  · simp only [weekStartMs, localDayIndex, weekday]
    omega

/-- C3: the today views return exactly the stored entries lying on the
same local calendar day as now; an entry dated exactly 24 hours before now
is never returned, and a stored entry dated on the local day of now is
returned. -/
theorem claim_C3 (tz now : Int) (s : AsyncStorage) :
    getTodaysDietEntries tz now s =
      (getDietEntries s).filter (fun e => sameLocalDay tz now e.date) ∧
    getTodaysExerciseEntries tz now s =
      (getExerciseEntries s).filter (fun e => sameLocalDay tz now e.date) ∧
    (∀ e : DietEntry, parseISODate e.date = some (now - 86400000) →
      e ∉ getTodaysDietEntries tz now s) ∧
    (∀ (e : DietEntry) (t : Int), parseISODate e.date = some t →
      localDayIndex tz t = localDayIndex tz now → e ∈ getDietEntries s →
      e ∈ getTodaysDietEntries tz now s) ∧
    (∀ x : ExerciseEntry, parseISODate x.date = some (now - 86400000) →
      x ∉ getTodaysExerciseEntries tz now s) ∧
    (∀ (x : ExerciseEntry) (t : Int), parseISODate x.date = some t →
      localDayIndex tz t = localDayIndex tz now → x ∈ getExerciseEntries s →
      x ∈ getTodaysExerciseEntries tz now s) := by
  refine ⟨rfl, rfl, ?_, ?_, ?_, ?_⟩
  · intro e h hmem
    have h2 := (List.mem_filter.mp hmem).2
    simp only [sameLocalDay, h, beq_iff_eq, localDayIndex] at h2
    omega
  · intro e t h hday hmem
    refine List.mem_filter.mpr ⟨hmem, ?_⟩
    simp [sameLocalDay, h, hday]
  · intro x h hmem
    have h2 := (List.mem_filter.mp hmem).2
    simp only [sameLocalDay, h, beq_iff_eq, localDayIndex] at h2
    omega
  · intro x t h hday hmem
    refine List.mem_filter.mpr ⟨hmem, ?_⟩
    simp [sameLocalDay, h, hday]

/-- C10: an entry whose date string is not a valid date is excluded from
both today views and never counted by the weekly progress, even though the
plain reads still return it. -/
theorem claim_C10 (tz now : Int) (s : AsyncStorage) (e : DietEntry)
    (x : ExerciseEntry) (he : parseISODate e.date = none)
    (hx : parseISODate x.date = none) :
    e ∉ getTodaysDietEntries tz now s ∧
    x ∉ getTodaysExerciseEntries tz now s ∧
    x ∉ (getExerciseEntries s).filter (fun y => inCurrentWeek tz now y.date) ∧
    getWeeklyExerciseProgress tz now (mkStore [] [x]) = ⟨0, 0, 0, 0⟩ ∧
    getDietEntries (mkStore [e] []) = [e] ∧
    getExerciseEntries (mkStore [] [x]) = [x] := by
  refine ⟨?_, ?_, ?_, ?_, getDietEntries_mkStore [e] [],
    getExerciseEntries_mkStore [] [x]⟩
  · intro hmem
    have h2 := (List.mem_filter.mp hmem).2
    simp [sameLocalDay, he] at h2
  · intro hmem
    have h2 := (List.mem_filter.mp hmem).2
    simp [sameLocalDay, hx] at h2
  · intro hmem
    have h2 := (List.mem_filter.mp hmem).2
    simp [inCurrentWeek, hx] at h2
  · simp [getWeeklyExerciseProgress, getExerciseEntries_mkStore,
      inCurrentWeek, hx]

/-- C7: a saved meal entry carries totals equal to the per-field sums over
its food list and keeps the list itself; a save with no food item is
rejected before the store is called. -/
theorem claim_C7 (i d mt : String) (foods : List FoodItem)
    (s : AsyncStorage) :
    (foods.length ≠ 0 →
      saveMeal i d mt foods s =
        some (addDietEntry s (mealEntry i d mt foods)) ∧
      (mealEntry i d mt foods).totalCalories =
        (foods.map FoodItem.calories).sum ∧
      (mealEntry i d mt foods).totalProtein =
        (foods.map FoodItem.protein).sum ∧
      (mealEntry i d mt foods).totalCarbs =
        (foods.map FoodItem.carbs).sum ∧
      (mealEntry i d mt foods).totalFat = (foods.map FoodItem.fat).sum ∧
      (mealEntry i d mt foods).foods = foods) ∧
    (foods.length = 0 → saveMeal i d mt foods s = none) := by
  constructor
  · intro h
    refine ⟨by simp [saveMeal, h], ?_, ?_, ?_, ?_, rfl⟩ <;>
      simp [mealEntry, calculateTotals_spec]
  · intro h
    simp [saveMeal, h]

/-- C8: a workout saved with a validated positive integral duration du
stores caloriesBurned equal to du * 5 exactly, Math.round being the
identity there. -/
theorem claim_C8 (i d ty : String) (exs : List Exercise) (du : Int)
    (s : AsyncStorage) (hex : exs.length ≠ 0) (hdu : 0 < du) :
    saveWorkout i d ty exs (some du) s =
      some (addExerciseEntry s (workoutEntry i d ty exs du)) ∧
    (workoutEntry i d ty exs du).caloriesBurned = (du : ℚ) * 5 := by
  constructor
  · have h2 : ¬ du ≤ 0 := by omega
    simp [saveWorkout, hex, h2]
  · show ((mathRound ((du : ℚ) * 5) : Int) : ℚ) = (du : ℚ) * 5
    rw [mathRound_intCast_mul]
    push_cast
    ring

/-- Sample food list used by concrete instantiations. -/
def sampleFoods : List FoodItem :=
  [⟨"Apple", 95, 1, 25, 1⟩, ⟨"Toast", 80, 3, 15, 1⟩]

/-- Sample diet entry used by concrete instantiations. -/
def sampleDiet : DietEntry :=
  ⟨"1699747200000", "2023-11-12T08:00:00.000Z", "breakfast", sampleFoods,
    175, 4, 40, 2⟩

/-- Sample exercise entry used by concrete instantiations. -/
def sampleExercise : ExerciseEntry :=
  ⟨"1699750800000", "2023-11-12T09:00:00.000Z", "strength",
    [⟨"Squats", some 3, some 10, some 60, none, none⟩], 45, 225⟩

/-- A fixed now: Sunday 2023-11-12, 01:00:00 UTC. -/
def nowC2 : Int := 1699750800000

/-- A fixed now: Sunday 2023-11-12, 12:00:00 UTC. -/
def nowC3 : Int := 1699790400000

/-- An exercise entry dated exactly at the week start for nowC2. -/
def weekStartEntry : ExerciseEntry :=
  ⟨"ws", "2023-11-12T00:00:00.000Z", "strength",
    [⟨"Bench Press", some 3, some 8, some 50, none, none⟩], 30, 150⟩

/-- An exercise entry dated exactly at the week end for nowC2. -/
def weekEndEntry : ExerciseEntry :=
  ⟨"we", "2023-11-19T00:00:00.000Z", "cardio",
    [⟨"Running", none, none, none, some 30, some 5⟩], 30, 150⟩

/-- C2 witness: at the Sunday now, the boundary entries fall as claimed
and the strength count over a concrete store is the in-window count. -/
theorem claim_C2_witness :
    inCurrentWeek 0 nowC2 (weekStartEntry.date) = true ∧
    inCurrentWeek 0 nowC2 (weekEndEntry.date) = false ∧
    (getWeeklyExerciseProgress 0 nowC2
      (mkStore [] [weekStartEntry, weekEndEntry])).strength = 1 :=
  ⟨(claim_C2 0 nowC2 initStore).2.1 weekStartEntry (by decide),
    (claim_C2 0 nowC2 initStore).2.2.1 weekEndEntry (by decide),
    ((claim_C2 0 nowC2 (mkStore [] [weekStartEntry, weekEndEntry])).1.1).trans
      (by decide)⟩

/-- A diet entry dated one hour before nowC3 on the same local day. -/
def morningEntry : DietEntry :=
  ⟨"m", "2023-11-12T11:00:00.000Z", "breakfast",
    [⟨"Oats", 150, 5, 27, 3⟩], 150, 5, 27, 3⟩

/-- A diet entry dated exactly 24 hours before nowC3. -/
def yesterdayEntry : DietEntry :=
  ⟨"y", "2023-11-11T12:00:00.000Z", "lunch",
    [⟨"Rice", 200, 4, 45, 0⟩], 200, 4, 45, 0⟩

/-- C3 witness: with now at Sunday noon, the entry of yesterday noon is
excluded and the entry of this morning is included. -/
theorem claim_C3_witness :
    yesterdayEntry ∉
      getTodaysDietEntries 0 nowC3 (mkStore [morningEntry, yesterdayEntry] []) ∧
    morningEntry ∈
      getTodaysDietEntries 0 nowC3 (mkStore [morningEntry, yesterdayEntry] []) :=
  ⟨(claim_C3 0 nowC3 (mkStore [morningEntry, yesterdayEntry] [])).2.2.1
      yesterdayEntry (by decide),
    (claim_C3 0 nowC3 (mkStore [morningEntry, yesterdayEntry] [])).2.2.2.1
      morningEntry 1699786800000 (by decide) (by decide) (by decide)⟩

/-- A provider whose get calls always reject. -/
def downStore : AsyncStorage :=
  { store := fun _ => none, getFails := fun _ => true,
    setFails := fun _ => false, multiRemoveFails := false }

/-- A provider holding unparseable text under every key. -/
def corruptStore : AsyncStorage :=
  { store := fun _ => some (Blob.malformed ("not json")),
    getFails := fun _ => false, setFails := fun _ => false,
    multiRemoveFails := false }

/-- C4 witness: a rejected get, an absent key and a malformed blob each
yield empty or zero results. -/
theorem claim_C4_witness :
    getDietEntries downStore = [] ∧
    getTodaysDietEntries 0 0 initStore = [] ∧
    getWeeklyExerciseProgress 0 0 corruptStore = ⟨0, 0, 0, 0⟩ :=
  ⟨((claim_C4 downStore 0 0).1 rfl).1,
    ((claim_C4 initStore 0 0).2.1 rfl).2,
    ((claim_C4 corruptStore 0 0).2.2.2.2.2 ("not json") rfl).2.2⟩

/-- A provider whose writes all reject. -/
def writeFailStore : AsyncStorage :=
  { store := fun _ => none, getFails := fun _ => false,
    setFails := fun _ => true, multiRemoveFails := true }

/-- A fault-free provider holding the valid JSON text 5 under every key:
JSON.parse accepts it, entries.push then throws a TypeError. -/
def nonArrayStore : AsyncStorage :=
  { store := fun _ => some (Blob.json (Json.num 5)),
    getFails := fun _ => false, setFails := fun _ => false,
    multiRemoveFails := false }

/-- C5 counterexample: with the number 5 stored under DIET_KEY and every
provider call working, addDietEntry rejects although no storage write
failed, refuting that an error is propagated exactly when the write
fails. -/
theorem claim_C5_counterexample :
    addDietEntry nonArrayStore sampleDiet = Except.error () ∧
    nonArrayStore.setFails DIET_KEY = false ∧
    ¬ (addDietEntry nonArrayStore sampleDiet = Except.error () ↔
        nonArrayStore.setFails DIET_KEY = true) :=
  ⟨rfl, rfl, fun h => absurd (h.mp rfl) (by decide)⟩

/-- C5 witness: failing writes reject, clean writes return normally. -/
theorem claim_C5_witness :
    addDietEntry writeFailStore sampleDiet = Except.error () ∧
    clearHealthData writeFailStore = Except.error () ∧
    (∃ s2, addDietEntry initStore sampleDiet = Except.ok s2) ∧
    (∃ s2, clearHealthData initStore = Except.ok s2) :=
  ⟨((claim_C5 writeFailStore sampleDiet sampleExercise).1).mpr (Or.inl rfl),
    ((claim_C5 writeFailStore sampleDiet sampleExercise).2.2.1).mpr rfl,
    (claim_C5 initStore sampleDiet sampleExercise).2.2.2.1 rfl rfl,
    (claim_C5 initStore sampleDiet sampleExercise).2.2.2.2.2 rfl⟩

/-- A fault-free store seeded with one entry of each kind. -/
def seededStore : AsyncStorage := mkStore [sampleDiet] [sampleExercise]

/-- The store after a successful clearHealthData on the seeded store. -/
def clearedStore : AsyncStorage :=
  match clearHealthData seededStore with
  | .ok t => t
  | .error _ => seededStore

/-- C6 witness: clearing the seeded store empties both collections. -/
theorem claim_C6_witness :
    getDietEntries clearedStore = [] ∧ getExerciseEntries clearedStore = [] :=
  claim_C6 seededStore clearedStore rfl

/-- The store after a successful addDietEntry on the seeded store. -/
def dietAddedStore : AsyncStorage :=
  match addDietEntry seededStore sampleDiet with
  | .ok t => t
  | .error _ => seededStore

/-- C9 witness: adding a diet entry leaves the exercise collection of the
seeded store untouched. -/
theorem claim_C9_witness :
    dietAddedStore.store EXERCISE_KEY = seededStore.store EXERCISE_KEY ∧
    getExerciseEntries dietAddedStore = getExerciseEntries seededStore :=
  (claim_C9 seededStore sampleDiet sampleExercise).1 dietAddedStore rfl

/-- C7 witness: the totals of a concrete two-item meal, and the rejection
of the empty meal. -/
theorem claim_C7_witness :
    (mealEntry ("7") ("2023-11-12T12:30:00.000Z") ("lunch")
      sampleFoods).totalCalories = 175 ∧
    saveMeal ("0") ("2023-11-12T12:30:00.000Z") ("snacks") [] initStore =
      none :=
  ⟨(((claim_C7 ("7") ("2023-11-12T12:30:00.000Z") ("lunch") sampleFoods
      initStore).1 (by decide)).2.1).trans (by norm_num [sampleFoods]),
    (claim_C7 ("0") ("2023-11-12T12:30:00.000Z") ("snacks") [] initStore).2
      rfl⟩

/-- Sample exercise list of a cardio workout. -/
def sampleCardio : List Exercise :=
  [⟨"Running", none, none, none, some 30, some 5⟩]

/-- C8 witness: a 30-minute workout stores 150 burned calories and calls
the store with the built entry. -/
theorem claim_C8_witness :
    (workoutEntry ("8") ("2023-11-12T09:30:00.000Z") ("cardio") sampleCardio
      30).caloriesBurned = 150 ∧
    saveWorkout ("8") ("2023-11-12T09:30:00.000Z") ("cardio") sampleCardio
      (some 30) initStore =
      some (addExerciseEntry initStore
        (workoutEntry ("8") ("2023-11-12T09:30:00.000Z") ("cardio")
          sampleCardio 30)) := by
  have h := claim_C8 ("8") ("2023-11-12T09:30:00.000Z") ("cardio")
    sampleCardio 30 initStore (by decide) (by decide)
  exact ⟨h.2.trans (by norm_num), h.1⟩

/-- A diet entry with an unparseable date string. -/
def badDateDiet : DietEntry :=
  ⟨"bd", "yesterday", "snacks", [⟨"Chips", 200, 2, 20, 12⟩], 200, 2, 20, 12⟩

/-- An exercise entry whose ISO-shaped date has an impossible month/day. -/
def badDateExercise : ExerciseEntry :=
  ⟨"bx", "2023-13-99T00:00:00.000Z", "cardio",
    [⟨"Rowing", none, none, none, some 20, none⟩], 20, 100⟩

/-- C10 witness: entries with invalid dates count zero in the weekly view
yet are still returned by the plain read. -/
theorem claim_C10_witness :
    getWeeklyExerciseProgress 0 nowC2 (mkStore [] [badDateExercise]) =
      ⟨0, 0, 0, 0⟩ ∧
    getDietEntries (mkStore [badDateDiet] []) = [badDateDiet] := by
  have h := claim_C10 0 nowC2 initStore badDateDiet badDateExercise
    (by decide) (by decide)
  exact ⟨h.2.2.2.1, h.2.2.2.2.1⟩
